import Mathlib

/-!
# Verification of the CORE_Austere smart content extractor

Shallow embedding of `database_operations/smart_extractor.py`
(`SmartContentExtractor`).  Pure pieces of the Python code (string
cleaning, `strptime`-based date normalisation, keyword classification,
confidence scoring, dictionary folding, database-record mapping) are
translated directly into executable Lean definitions.  Calls to
`re.findall` are abstracted by an oracle (`ReEnv`), because the claims
under study are about the pipeline around the regex engine, not about
the regex engine itself; every registry pattern has exactly one capture
group, so `re.findall` always returns a list of strings here (the
tuple-shaped branch of the Python cleaning loop is dead code for this
registry and is not modelled).

Python `str` values are modelled as Lean `String`; Python `float`
scores are modelled as `ℚ` (the confidence arithmetic only ever
produces dyadic-plus-decimal constants and the claims under study are
interval bounds, which are insensitive to binary rounding).
-/

/-! ## Python string primitives -/

/-- The ASCII whitespace characters recognised by Python's `str.strip`
and by the `\s` class on ASCII text. -/
def isPySpace (c : Char) : Bool :=
  c = ' ' || c = '\t' || c = '\n' || c = '\r' || c = '\x0b' || c = '\x0c'

/-- Python `str.strip()` (ASCII whitespace). -/
def pyStrip (s : String) : String :=
  ⟨((s.data.dropWhile isPySpace).reverse.dropWhile isPySpace).reverse⟩

/-- Python `str.lower()` (ASCII letters). -/
def pyLower (s : String) : String := ⟨s.data.map Char.toLower⟩

/-- Python `str.upper()` (ASCII letters). -/
def pyUpper (s : String) : String := ⟨s.data.map Char.toUpper⟩

/-- Helper for `pyTitle`: the boolean records whether the previous
character was a letter. -/
def pyTitleAux : Bool → List Char → List Char
  | _, [] => []
  | prevAlpha, c :: rest =>
    if c.isAlpha then
      (if prevAlpha then c.toLower else c.toUpper) :: pyTitleAux true rest
    else
      c :: pyTitleAux false rest

/-- Python `str.title()` (ASCII letters): first letter of every
alphabetic run uppercased, the rest lowercased. -/
def pyTitle (s : String) : String := ⟨pyTitleAux false s.data⟩

/-- Models `re.sub(r'\s+', '', s)`: delete every whitespace character. -/
def stripAllWs (s : String) : String := ⟨s.data.filter (fun c => !isPySpace c)⟩

/-- Python's `needle in hay` substring test. -/
def pyContains (hay needle : String) : Bool :=
  decide (needle.data <:+: hay.data)

/-- Models `any(w in hay for w in ws)`. -/
def anyWord (hay : String) (ws : List String) : Bool :=
  ws.any (fun w => pyContains hay w)

/-! ## Python dictionaries

Python `dict`s are modelled as association lists in insertion order;
`d[k] = v` replaces an existing binding in place or appends a fresh
one, exactly like CPython. -/

/-- Assignment `d[k] = v` on an insertion-ordered dictionary. -/
def dictSet {α : Type} : List (String × α) → String → α → List (String × α)
  | [], k, v => [(k, v)]
  | (k', v') :: rest, k, v =>
    if k' = k then (k', v) :: rest else (k', v') :: dictSet rest k v

theorem lookup_dictSet {α : Type} (d : List (String × α)) (k t : String) (v : α) :
    (dictSet d k v).lookup t = if t = k then some v else d.lookup t := by
  induction d with
  | nil =>
    by_cases h : t = k
    · simp [dictSet, List.lookup, h]
    · have hb : (t == k) = false := beq_eq_false_iff_ne.mpr h
      simp [dictSet, List.lookup, h, hb]
  | cons hd tl ih =>
    obtain ⟨k', v'⟩ := hd
    by_cases hk : k' = k
    · subst hk
      by_cases ht : t = k'
      · simp [dictSet, List.lookup, ht]
      · have hb : (t == k') = false := beq_eq_false_iff_ne.mpr ht
        simp [dictSet, List.lookup, ht, hb]
    · by_cases ht : t = k'
      · have hnk : ¬ t = k := fun hh => hk (ht.symm.trans hh)
        simp [dictSet, List.lookup, hk, hnk, ht]
      · have hb : (t == k') = false := beq_eq_false_iff_ne.mpr ht
        simp [dictSet, List.lookup, hk, ht, hb, ih]

theorem lookup_mem_keys {α : Type} (d : List (String × α)) (t : String) (v : α)
    (h : d.lookup t = some v) : t ∈ d.map Prod.fst := by
  induction d with
  | nil => simp [List.lookup] at h
  | cons hd tl ih =>
    obtain ⟨k', v'⟩ := hd
    by_cases ht : t = k'
    · simp [ht]
    · have hb : (t == k') = false := beq_eq_false_iff_ne.mpr ht
      simp [List.lookup, hb] at h
      simp [ih h]

/-! ## Date/time normaliser (`parse_datetime`)

Models Python `datetime.strptime` for the six formats the extractor
tries, including CPython's field regexes (`%Y` is exactly four digits,
`%m` is `1[0-2]|0[1-9]|[1-9]`, and so on), full-string anchoring, and
post-regex calendar validation, followed by `strftime` rendering. -/

def digVal (c : Char) : Nat := c.toNat - 48

/-- Field `%Y`: exactly four digits. -/
def pYear : List Char → Option (Nat × List Char)
  | a :: b :: c :: d :: rest =>
    if a.isDigit && b.isDigit && c.isDigit && d.isDigit then
      some (digVal a * 1000 + digVal b * 100 + digVal c * 10 + digVal d, rest)
    else none
  | _ => none

/-- Candidate parses of a one-or-two digit field, two-digit alternative
first, mirroring the alternation order of CPython's field regexes. -/
def cands2 (ok2 : Char → Char → Bool) (ok1 : Char → Bool) :
    List Char → List (Nat × List Char)
  | a :: b :: rest =>
    (if ok2 a b then [(digVal a * 10 + digVal b, rest)] else []) ++
    (if ok1 a then [(digVal a, b :: rest)] else [])
  | [a] => if ok1 a then [(digVal a, ([] : List Char))] else []
  | [] => []

/-- Field `%m`: `1[0-2]|0[1-9]|[1-9]`. -/
def candsMonth : List Char → List (Nat × List Char) :=
  cands2
    (fun a b => (a = '1' && (b = '0' || b = '1' || b = '2')) ||
                (a = '0' && b.isDigit && b ≠ '0'))
    (fun a => a.isDigit && a ≠ '0')

/-- Field `%d`: `3[01]|[12]\d|0[1-9]|[1-9]`. -/
def candsDay : List Char → List (Nat × List Char) :=
  cands2
    (fun a b => (a = '3' && (b = '0' || b = '1')) ||
                ((a = '1' || a = '2') && b.isDigit) ||
                (a = '0' && b.isDigit && b ≠ '0'))
    (fun a => a.isDigit && a ≠ '0')

/-- Field `%H`: `2[0-3]|[01]\d|\d`. -/
def candsHour : List Char → List (Nat × List Char) :=
  cands2
    (fun a b => (a = '2' && (b = '0' || b = '1' || b = '2' || b = '3')) ||
                ((a = '0' || a = '1') && b.isDigit))
    (fun a => a.isDigit)

/-- Field `%M`: `[0-5]\d|\d`. -/
def candsMin : List Char → List (Nat × List Char) :=
  cands2
    (fun a b => ('0' ≤ a && a ≤ '5') && b.isDigit)
    (fun a => a.isDigit)

/-- Field `%S`: `6[01]|[0-5]\d|\d` (leap seconds pass the regex and are then
rejected by the `datetime` constructor). -/
def candsSec : List Char → List (Nat × List Char)
  | a :: b :: rest =>
    (if a = '6' && (b = '0' || b = '1') then [(digVal a * 10 + digVal b, rest)] else []) ++
    (if ('0' ≤ a && a ≤ '5') && b.isDigit then [(digVal a * 10 + digVal b, rest)] else []) ++
    (if a.isDigit then [(digVal a, b :: rest)] else [])
  | [a] => if a.isDigit then [(digVal a, ([] : List Char))] else []
  | [] => []

/-- Try candidate parses in order; the first whose continuation
succeeds wins (regex backtracking). -/
def tryCands {α : Type} : List (Nat × List Char) → (Nat → List Char → Option α) → Option α
  | [], _ => none
  | (v, rest) :: more, k =>
    match k v rest with
    | some r => some r
    | none => tryCands more k

/-- A literal character in the format. -/
def pLit (c : Char) : List Char → Option (List Char)
  | x :: rest => if x = c then some rest else none
  | [] => none

/-- A whitespace gap (`\s+`, always followed by a digit field here, so
greedy consumption is exact). -/
def pWs : List Char → Option (List Char)
  | x :: rest => if isPySpace x then some (rest.dropWhile isPySpace) else none
  | [] => none

/-- Format `%Y-%m-%d`, anchored at both ends. -/
def parseYMD (cs : List Char) : Option (Nat × Nat × Nat) :=
  match pYear cs with
  | none => none
  | some (y, r1) =>
    match pLit '-' r1 with
    | none => none
    | some r2 =>
      tryCands (candsMonth r2) fun m r3 =>
        match pLit '-' r3 with
        | none => none
        | some r4 =>
          tryCands (candsDay r4) fun d r5 =>
            if r5 = [] then some (y, m, d) else none

/-- Format `%Y-%m-%d %H:%M:%S`, anchored at both ends. -/
def parseYMDHMS (cs : List Char) : Option (Nat × Nat × Nat × Nat × Nat × Nat) :=
  match pYear cs with
  | none => none
  | some (y, r1) =>
    match pLit '-' r1 with
    | none => none
    | some r2 =>
      tryCands (candsMonth r2) fun m r3 =>
        match pLit '-' r3 with
        | none => none
        | some r4 =>
          tryCands (candsDay r4) fun d r5 =>
            match pWs r5 with
            | none => none
            | some r6 =>
              tryCands (candsHour r6) fun hh r7 =>
                match pLit ':' r7 with
                | none => none
                | some r8 =>
                  tryCands (candsMin r8) fun mi r9 =>
                    match pLit ':' r9 with
                    | none => none
                    | some r10 =>
                      tryCands (candsSec r10) fun ss r11 =>
                        if r11 = [] then some (y, m, d, hh, mi, ss) else none

/-- Two one-or-two-digit fields (with the given field regexes, in
textual order) and a trailing four-digit year, separated by `sep`:
the `%m/%d/%Y`-style formats, anchored at both ends. -/
def parseTwoFieldsYear (c1 c2 : List Char → List (Nat × List Char))
    (sep : Char) (cs : List Char) : Option (Nat × Nat × Nat) :=
  tryCands (c1 cs) fun f1 r1 =>
    match pLit sep r1 with
    | none => none
    | some r2 =>
      tryCands (c2 r2) fun f2 r3 =>
        match pLit sep r3 with
        | none => none
        | some r4 =>
          match pYear r4 with
          | some (y, []) => some (f1, f2, y)
          | _ => none

/-- Gregorian leap year, as in Python's `datetime`. -/
def isLeap (y : Nat) : Bool := y % 4 = 0 && (y % 100 ≠ 0 || y % 400 = 0)

def daysInMonth (y m : Nat) : Nat :=
  if m = 2 then (if isLeap y then 29 else 28)
  else if m = 4 || m = 6 || m = 9 || m = 11 then 30
  else 31

/-- The checks done by the `datetime` constructor after `strptime`'s
regex succeeds (hours/minutes are already constrained by the regex;
seconds may be 60/61 from the regex and are rejected here). -/
def validDate (y m d : Nat) : Bool :=
  1 ≤ y && y ≤ 9999 && 1 ≤ m && m ≤ 12 && 1 ≤ d && d ≤ daysInMonth y m

def pad2 (n : Nat) : String := if n < 10 then "0" ++ toString n else toString n

def pad4 (n : Nat) : String :=
  if n < 10 then "000" ++ toString n
  else if n < 100 then "00" ++ toString n
  else if n < 1000 then "0" ++ toString n
  else toString n

/-- Rendering `strftime('%Y-%m-%d')`. -/
def renderYMD (y m d : Nat) : String := pad4 y ++ "-" ++ pad2 m ++ "-" ++ pad2 d

/-- Rendering `strftime('%Y-%m-%d %H:%M:%S')`. -/
def renderYMDHMS (y m d hh mi ss : Nat) : String :=
  renderYMD y m d ++ " " ++ pad2 hh ++ ":" ++ pad2 mi ++ ":" ++ pad2 ss

/-- One `strptime` attempt including calendar validation and
`strftime` rendering; `none` means `ValueError` (regex mismatch or
invalid date), which the Python loop catches and skips. -/
def tryFormat1 (cs : List Char) : Option String :=
  match parseYMDHMS cs with
  | some (y, m, d, hh, mi, ss) =>
    if validDate y m d && ss ≤ 59 then some (renderYMDHMS y m d hh mi ss) else none
  | none => none

def tryFormatYMD (cs : List Char) : Option String :=
  match parseYMD cs with
  | some (y, m, d) => if validDate y m d then some (renderYMD y m d) else none
  | none => none

/-- Formats of the `%m/%d/%Y` family: `mdOrder = true` means month first. -/
def tryFormatMDY (mdOrder : Bool) (sep : Char) (cs : List Char) : Option String :=
  let fields :=
    if mdOrder then parseTwoFieldsYear candsMonth candsDay sep cs
    else parseTwoFieldsYear candsDay candsMonth sep cs
  match fields with
  | some (f1, f2, y) =>
    let m := if mdOrder then f1 else f2
    let d := if mdOrder then f2 else f1
    if validDate y m d then some (renderYMD y m d) else none
  | none => none

/-- The six `(input_pattern, output_pattern)` attempts of
`parse_datetime`, in source order; the first that succeeds wins. -/
def tryFormats (cs : List Char) : Option String :=
  match tryFormat1 cs with
  | some r => some r
  | none =>
  match tryFormatYMD cs with
  | some r => some r
  | none =>
  match tryFormatMDY true '/' cs with
  | some r => some r
  | none =>
  match tryFormatMDY false '/' cs with
  | some r => some r
  | none =>
  match tryFormatMDY true '-' cs with
  | some r => some r
  | none => tryFormatMDY false '-' cs

/-- Method `SmartContentExtractor.parse_datetime`: strip the input, try the
six formats in order, and fall back to the stripped input. -/
def parse_datetime (s : String) : String :=
  let t := pyStrip s
  match tryFormats t.data with
  | some out => out
  | none => t

/-! ## Pattern registry (`self.patterns`)

The regex source strings, verbatim.  They are consumed only by the
`re.findall` oracle below; keeping the literal text makes the registry
data (ordering, priority) explicit. -/

def patternsList : List (String × List String) :=
  [ ("classification",
      [ "Classification:\\s*([A-Z//\\s]+)"
      , "CLASSIFICATION:\\s*([A-Z//\\s]+)"
      , "(?:^|\\n)\\s*([A-Z]+//[A-Z\\s/]+)"
      , "(?:^|\\n)\\s*(UNCLASSIFIED|CONFIDENTIAL|SECRET|TOP\\s*SECRET)(?://[A-Z\\s/]+)?" ])
  , ("date_time",
      [ "Date[/\\s]*Time[^:]*:\\s*([^\\n]+)"
      , "Date:\\s*([^\\n]+)"
      , "Time:\\s*([^\\n]+)"
      , "(\\d\x7b4\x7d-\\d\x7b2\x7d-\\d\x7b2\x7d[\\sT]\\d\x7b2\x7d:\\d\x7b2\x7d:\\d\x7b2\x7d)"
      , "(\\d\x7b1,2\x7d/\\d\x7b1,2\x7d/\\d\x7b4\x7d)"
      , "(\\d\x7b1,2\x7d-\\d\x7b1,2\x7d-\\d\x7b4\x7d)" ])
  , ("unit",
      [ "Reporting\\s+Unit:\\s*([^\\n]+)"
      , "Unit:\\s*([^\\n]+)"
      , "From:\\s*([^\\n]+)"
      , "(\\d+(?:st|nd|rd|th)\\s+[A-Za-z\\s]+(?:Battalion|Regiment|Division|Detachment|Company|Brigade))"
      , "([A-Z]+\\s+\\d+[A-Z]*)" ])
  , ("location_mgrs",
      [ "Location[^:]*MGRS[^:]*:\\s*([A-Z0-9\\s]+)"
      , "MGRS[^:]*:\\s*([A-Z0-9\\s]+)"
      , "Grid[^:]*:\\s*([A-Z0-9\\s]+)"
      , "\\b(\\d\x7b1,2\x7d[A-Z]\x7b3\x7d\\d\x7b4,10\x7d)\\b" ])
  , ("location_name",
      [ "Location[^:]*:\\s*([^(\\n]+)(?:\\([^)]*\\))?"
      , "Area[^:]*:\\s*([^\\n]+)"
      , "Region[^:]*:\\s*([^\\n]+)"
      , "(?:near|at|in)\\s+([A-Z][a-z]+(?:\\s+[A-Z][a-z]+)*)" ])
  , ("analyst",
      [ "Analyst:\\s*([^\\n]+)"
      , "Prepared\\s+by:\\s*([^\\n]+)"
      , "Author:\\s*([^\\n]+)"
      , "By:\\s*([A-Z]\\.\\s*[A-Z][a-z]+)" ])
  , ("summary",
      [ "Executive\\s+Summary[:\\s]*\\n([^\\n]+(?:\\n(?![\\w\\s]*:)[^\\n]*)*)"
      , "Summary[:\\s]*\\n([^\\n]+(?:\\n(?![\\w\\s]*:)[^\\n]*)*)"
      , "SUMMARY[:\\s]*\\n([^\\n]+(?:\\n(?![\\w\\s]*:)[^\\n]*)*)" ])
  , ("assessment",
      [ "Assessment[:\\s]*\\n([^\\n]+(?:\\n(?![\\w\\s]*:)[^\\n]*)*)"
      , "Analysis[:\\s]*\\n([^\\n]+(?:\\n(?![\\w\\s]*:)[^\\n]*)*)"
      , "Conclusion[:\\s]*\\n([^\\n]+(?:\\n(?![\\w\\s]*:)[^\\n]*)*)" ])
  , ("recommendations",
      [ "Recommendations?[:\\s]*\\n((?:\\d+\\..*?\\n?)*)"
      , "Actions?[:\\s]*\\n((?:\\d+\\..*?\\n?)*)"
      , "Next\\s+Steps[:\\s]*\\n((?:\\d+\\..*?\\n?)*)" ])
  , ("confidence",
      [ "(High|Medium|Moderate|Low)\\s+confidence"
      , "Confidence:\\s*([^\\n]+)"
      , "Reliability:\\s*([^\\n]+)" ])
  , ("source_type",
      [ "(HUMINT|SIGINT|IMINT|GEOINT|OSINT|UAV|ELINT)"
      , "Source:\\s*([^\\n]+)"
      , "Intel\\s+Type:\\s*([^\\n]+)" ])
  ]

/-- The eleven-type field enumeration (the keys of the registry). -/
def fieldTypes : List String :=
  [ "classification", "date_time", "unit", "location_mgrs", "location_name"
  , "analyst", "summary", "assessment", "recommendations", "confidence"
  , "source_type" ]

/-- Table `self.cleaners`, applied per raw match; field types without a
cleaner get a bare `strip()` in the extraction loop. -/
def applyCleaner (field_type m : String) : String :=
  if field_type = "classification" then pyUpper (pyStrip m)
  else if field_type = "date_time" then parse_datetime m
  else if field_type = "location_mgrs" then stripAllWs (pyUpper m)
  else if field_type = "location_name" then pyTitle (pyStrip m)
  else if field_type = "analyst" then pyTitle (pyStrip m)
  else if field_type = "confidence" then pyTitle (pyStrip m)
  else if field_type = "source_type" then pyUpper (pyStrip m)
  else pyStrip m

/-! ## The `re.findall` oracle -/

/-- The three flag combinations used in the source: no flags
(`re.findall(p, text)`), `re.IGNORECASE`, and
`re.IGNORECASE | re.MULTILINE`. -/
inductive ReFlags
  | noFlags
  | icase
  | icaseMultiline
deriving DecidableEq

/-- Abstract interface to `re.findall`.  Every pattern in this program
has exactly one capture group, so each call returns the list of group
captures (plain strings), in match order. -/
structure ReEnv where
  findall : ReFlags → String → String → List String

/-! ## Document classifier (`classify_document_type`) -/

def classify_document_type (text : String) : String :=
  let text_lower := pyLower text
  if anyWord text_lower ["intelligence", "intel", "assessment", "analysis"] then
    if anyWord text_lower ["summary", "sitrep", "situation"] then
      "intelligence_summary"
    else if anyWord text_lower ["assessment", "analysis"] then
      "intelligence_assessment"
    else
      "intelligence_report"
  else if anyWord text_lower ["patrol", "mission", "operation"] then
    "mission_report"
  else if anyWord text_lower ["incident", "event", "contact"] then
    "incident_report"
  else if anyWord text_lower ["brief", "briefing"] then
    "briefing"
  else
    "general_document"

/-! ## Confidence scorer (`calculate_confidence`) -/

def calculate_confidence (field_type value full_text : String) : ℚ :=
  let confidence : ℚ := 0.5
  let confidence :=
    if field_type = "classification" && pyContains (pyLower full_text) "classification:" then
      confidence + 0.3
    else if field_type = "date_time" && anyWord (pyLower full_text) ["date", "time"] then
      confidence + 0.2
    else if field_type = "unit" && pyContains (pyLower full_text) "unit" then
      confidence + 0.3
    else if field_type = "location_mgrs" && pyContains (pyLower full_text) "mgrs" then
      confidence + 0.4
    else confidence
  let confidence := if value.length < 3 then confidence - 0.2 else confidence
  min 1.0 (max 0.1 confidence)

/-! ## Theme and entity miner -/

def theme_keywords : List (String × List String) :=
  [ ("security", ["security", "threat", "hostile", "enemy", "insurgent"])
  , ("logistics", ["supply", "resupply", "convoy", "logistics", "equipment"])
  , ("surveillance", ["uav", "surveillance", "observation", "monitoring", "isr"])
  , ("communications", ["comms", "radio", "frequency", "signal", "transmission"])
  , ("movement", ["movement", "patrol", "vehicle", "activity", "formation"])
  , ("intelligence", ["intel", "humint", "sigint", "imint", "analysis"]) ]

def extract_themes (text : String) : List String :=
  let text_lower := pyLower text
  (theme_keywords.foldl
    (fun acc p => if p.2.any (fun kw => pyContains text_lower kw) then acc ++ [p.1] else acc)
    []).take 5

structure Entities where
  people : List String
  places : List String
  organizations : List String
  equipment : List String
deriving DecidableEq

def people_patterns : List String :=
  [ "\\b[A-Z]\\.\\s*[A-Z][a-z]+\\b"
  , "\\b(?:Analyst|Officer|Commander|Agent):\\s*([A-Z][a-z]+(?:\\s+[A-Z][a-z]+)*)" ]

def place_patterns : List String :=
  [ "(?:Highway|Route|Road)\\s+(\\d+)"
  , "(?:near|at|in)\\s+([A-Z][a-z]+(?:\\s+[A-Z][a-z]+)?)" ]

def equipment_patterns : List String :=
  [ "\\b(UAV|UAS|drone)s?\\b"
  , "\\b(\\d+\\.\\d+\\s*MHz)\\b"
  , "\\b(thermal\\s+imagery|night\\s+vision|radio)\\b" ]

/-- Models `list(set([e.strip() for e in l if e.strip()]))[:5]`.  CPython's
`set` iteration order is unspecified; it is modelled as first-occurrence
order (the claims proved below do not depend on the order). -/
def cleanDedupTrunc (l : List String) : List String :=
  (((l.map pyStrip).filter (fun e => e ≠ "")).foldl
    (fun acc e => if e ∈ acc then acc else acc ++ [e]) []).take 5

def extract_entities (env : ReEnv) (text : String) : Entities :=
  let people := people_patterns.foldl
    (fun acc p => acc ++ env.findall ReFlags.noFlags p text) []
  let places := place_patterns.foldl
    (fun acc p => acc ++ env.findall ReFlags.noFlags p text) []
  let organizations : List String := []
  let equipment := equipment_patterns.foldl
    (fun acc p => acc ++ env.findall ReFlags.icase p text) []
  { people := cleanDedupTrunc people
  , places := cleanDedupTrunc places
  , organizations := cleanDedupTrunc organizations
  , equipment := cleanDedupTrunc equipment }

/-! ## Extraction result (`extract_structured_data`) -/

/-- The values stored in `structured_fields`: selected strings for the
pattern fields, plus the two synthetic entries. -/
inductive PyVal
  | str (s : String)
  | themes (l : List String)
  | ents (e : Entities)
deriving DecidableEq

/-- The dict returned by `extract_structured_data`, with the
`extraction_metadata` sub-dict flattened into `meta_*` fields.
`meta_extraction_time` carries the impure `datetime.now().isoformat()`
value, supplied as a parameter. -/
structure Extracted where
  raw_extractions : List (String × List String)
  structured_fields : List (String × PyVal)
  confidence_scores : List (String × ℚ)
  document_type : String
  meta_filename : String
  meta_extraction_time : String
  meta_text_length : Nat
  meta_fields_found : Nat
  meta_avg_confidence : ℚ
deriving DecidableEq

/-- The per-field-type match collection loop:
`found = re.findall(pattern, text, re.IGNORECASE | re.MULTILINE)`;
`if found: matches.extend(found)`. -/
def collectMatches (env : ReEnv) (text : String) (pats : List String) : List String :=
  pats.foldl
    (fun ms p =>
      let found := env.findall ReFlags.icaseMultiline p text
      if found ≠ [] then ms ++ found else ms)
    []

/-- The cleaning/deduplication loop: clean each match, keep it if it
is non-empty and not yet present. -/
def cleanMatches (field_type : String) (rawMatches : List String) : List String :=
  rawMatches.foldl
    (fun cleaned m =>
      let m := applyCleaner field_type m
      if m ≠ "" ∧ m ∉ cleaned then cleaned ++ [m] else cleaned)
    []

/-- The main extraction loop over the registry, returning
(`raw_extractions`, `structured_fields`, `confidence_scores`) in
registry order.  Processing the head field prepends its entries to the
result of the remaining fields, which yields the same insertion-ordered
dicts as the Python `for` loop. -/
def processFields (env : ReEnv) (text : String) :
    List (String × List String) →
    List (String × List String) × List (String × PyVal) × List (String × ℚ)
  | [] => ([], [], [])
  | (field_type, pats) :: rest =>
    let R := processFields env text rest
    let found := collectMatches env text pats
    if found = [] then R
    else
      let cleaned := cleanMatches field_type found
      match cleaned with
      | [] => ((field_type, cleaned) :: R.1, R.2.1, R.2.2)
      | c :: _ =>
        ((field_type, cleaned) :: R.1,
         (field_type, PyVal.str c) :: R.2.1,
         (field_type, calculate_confidence field_type c text) :: R.2.2)

/-- Method `post_process_extractions`. -/
def post_process_extractions (env : ReEnv) (ex : Extracted) (text : String) : Extracted :=
  -- Combine date and time if separate
  let ex :=
    if (ex.structured_fields.lookup "date_time").isNone then
      let date_parts :=
        ((ex.raw_extractions.lookup "date").getD []) ++
        ((ex.raw_extractions.lookup "time").getD [])
      if date_parts ≠ [] then
        { ex with structured_fields :=
            (dictSet ex.structured_fields "date_time"
              (PyVal.str (parse_datetime (String.intercalate " " (date_parts.take 2))))) }
      else ex
    else ex
  -- Extract key topics and themes
  let ex := { ex with structured_fields :=
      (dictSet ex.structured_fields "key_themes" (PyVal.themes (extract_themes text))) }
  -- Extract entities
  let ex := { ex with structured_fields :=
      (dictSet ex.structured_fields "entities" (PyVal.ents (extract_entities env text))) }
  -- Summary statistics
  { ex with
    meta_fields_found := ex.structured_fields.length,
    meta_avg_confidence :=
      if ex.confidence_scores = [] then 0.0
      else (ex.confidence_scores.map Prod.snd).sum / (ex.confidence_scores.length : ℚ) }

/-- Method `extract_structured_data(text, filename)`; `now` models
`datetime.now().isoformat()`. -/
def extract_structured_data (env : ReEnv) (text filename now : String) : Extracted :=
  let (raw, structured, conf) := processFields env text patternsList
  post_process_extractions env
    { raw_extractions := raw
    , structured_fields := structured
    , confidence_scores := conf
    , document_type := classify_document_type text
    , meta_filename := filename
    , meta_extraction_time := now
    , meta_text_length := text.length
    , meta_fields_found := 0
    , meta_avg_confidence := 0.0 }
    text

/-! ## Database field mapper (`format_for_database`) -/

/-- Conversion `str(v)` for the values that can appear in `structured_fields`.
Only the `.str` case is reachable through the mapping loop (the list
case, `key_themes`, is special-cased to a join before `str` is
applied); the other cases follow Python's `str` rendering of lists and
dicts of strings. -/
def pyReprStrList (l : List String) : String :=
  "[" ++ String.intercalate ", " (l.map (fun s => "\x27" ++ s ++ "\x27")) ++ "]"

def pyStrOfVal : PyVal → String
  | PyVal.str s => s
  | PyVal.themes l => pyReprStrList l
  | PyVal.ents e =>
      "\x7b" ++ String.intercalate ", "
        [ "\x27people\x27: " ++ pyReprStrList e.people
        , "\x27places\x27: " ++ pyReprStrList e.places
        , "\x27organizations\x27: " ++ pyReprStrList e.organizations
        , "\x27equipment\x27: " ++ pyReprStrList e.equipment ] ++ "\x7d"

/-- Python truthiness of a `structured_fields` value (an `Entities`
dict always has four keys, hence is truthy). -/
def pyTruthy : PyVal → Bool
  | PyVal.str s => s ≠ ""
  | PyVal.themes l => l ≠ []
  | PyVal.ents _ => true

/-- Models `'|'.join(v)`: joins a list of strings; joining a string iterates
its characters, joining a dict iterates its keys (unreachable here —
`key_themes` always holds a list). -/
def pyJoinBar : PyVal → String
  | PyVal.themes l => String.intercalate "|" l
  | PyVal.str s => String.intercalate "|" (s.data.map String.singleton)
  | PyVal.ents _ =>
      String.intercalate "|" ["people", "places", "organizations", "equipment"]

/-- The `field_mapping` table (extracted field, database field). -/
def field_mapping : List (String × String) :=
  [ ("classification", "highest_classification")
  , ("date_time", "timeframes")
  , ("location_name", "locations")
  , ("unit", "subjects")
  , ("key_themes", "topics")
  , ("analyst", "caveats") ]

/-- The database record: a Python dict from column name to string
value, modelled extensionally. -/
def DBRecord : Type := String → Option String

/-- Assignment `result[k] = v`. -/
def recSet (r : DBRecord) (k v : String) : DBRecord :=
  fun k' => if k' = k then some v else r k'

/-- The `for extracted_field, db_field in field_mapping.items()` loop:
`if extracted_field in structured and structured[extracted_field]:`
assign the (joined or stringified) value to the database field. -/
def applyFieldMapping (structured : List (String × PyVal)) :
    List (String × String) → DBRecord → DBRecord
  | [], r => r
  | p :: rest, r =>
    let nextr :=
      match structured.lookup p.1 with
      | some v =>
        if pyTruthy v then
          if p.1 = "key_themes" then recSet r p.2 (pyJoinBar v)
          else recSet r p.2 (pyStrOfVal v)
        else r
      | none => r
    applyFieldMapping structured rest nextr

/-- Rendering of a rational inside `json.dumps`, abstracted (Python would render the
underlying float; no claim depends on the digits). -/
def renderRat (q : ℚ) : String := toString q.num ++ "/" ++ toString q.den

def jsonStr (s : String) : String := "\"" ++ s ++ "\""

def jsonStrList (l : List String) : String :=
  "[" ++ String.intercalate ", " (l.map jsonStr) ++ "]"

def jsonEntities (e : Entities) : String :=
  "\x7b" ++ String.intercalate ", "
    [ jsonStr "people" ++ ": " ++ jsonStrList e.people
    , jsonStr "places" ++ ": " ++ jsonStrList e.places
    , jsonStr "organizations" ++ ": " ++ jsonStrList e.organizations
    , jsonStr "equipment" ++ ": " ++ jsonStrList e.equipment ] ++ "\x7d"

/-- The serialized `extraction_metadata` blob:
`json.dumps({'document_type': ..., 'confidence_scores': ...,
'entities': ..., 'extraction_time': ...})`. -/
def serializeMetadata (ex : Extracted) : String :=
  let entsPart :=
    match ex.structured_fields.lookup "entities" with
    | some (PyVal.ents e) => jsonEntities e
    | _ => "\x7b\x7d"
  "\x7b" ++ String.intercalate ", "
    [ jsonStr "document_type" ++ ": " ++ jsonStr ex.document_type
    , jsonStr "confidence_scores" ++ ": \x7b" ++
        String.intercalate ", "
          (ex.confidence_scores.map (fun p => jsonStr p.1 ++ ": " ++ renderRat p.2)) ++ "\x7d"
    , jsonStr "entities" ++ ": " ++ entsPart
    , jsonStr "extraction_time" ++ ": " ++ jsonStr ex.meta_extraction_time ] ++ "\x7d"

/-- Method `format_for_database(extracted_data, original_fields)`. -/
def format_for_database (ex : Extracted) (original_fields : DBRecord) : DBRecord :=
  -- Start with original fields; map extracted fields to database fields
  let result := applyFieldMapping ex.structured_fields field_mapping original_fields
  -- Enhance MGRS field
  let result :=
    match ex.structured_fields.lookup "location_mgrs" with
    | some (PyVal.str new_mgrs) =>
      let existing_mgrs := (result "MGRS").getD ""
      if existing_mgrs ≠ "" ∧ ¬ (pyContains existing_mgrs new_mgrs = true) then
        recSet result "MGRS" (existing_mgrs ++ "|" ++ new_mgrs)
      else if existing_mgrs = "" then
        recSet result "MGRS" new_mgrs
      else result
    | _ => result
  -- Store extraction metadata as JSON in a new field
  recSet result "extraction_metadata" (serializeMetadata ex)

/-! ## Lemmas about the extraction loop -/

theorem collectMatches_empty (env : ReEnv) (text : String) (pats : List String)
    (h : ∀ p ∈ pats, env.findall ReFlags.icaseMultiline p text = []) :
    collectMatches env text pats = [] := by
  unfold collectMatches
  induction pats with
  | nil => rfl
  | cons p rest ih =>
    have hp := h p (by simp)
    simp only [List.foldl_cons, hp]
    simpa using ih (fun q hq => h q (by simp [hq]))

theorem processFields_raw_mem (env : ReEnv) (text : String) :
    ∀ (l : List (String × List String)) (t : String) (xs : List String),
      (processFields env text l).1.lookup t = some xs → t ∈ l.map Prod.fst := by
  intro l
  induction l with
  | nil => intro t xs h; simp [processFields, List.lookup] at h
  | cons hd rest ih =>
    obtain ⟨ft, pats⟩ := hd
    intro t xs h
    simp only [processFields] at h
    by_cases hf : collectMatches env text pats = []
    · simp only [hf, if_pos rfl] at h
      simp [ih t xs h]
    · simp only [if_neg hf] at h
      rcases hc : cleanMatches ft (collectMatches env text pats) with _ | ⟨c, cs⟩ <;>
        simp only [hc] at h <;>
        (by_cases ht : t = ft
         · simp [ht]
         · have hb : (t == ft) = false := beq_eq_false_iff_ne.mpr ht
           simp only [List.lookup, hb] at h
           simp [ih t xs h])

theorem processFields_str_mem (env : ReEnv) (text : String) :
    ∀ (l : List (String × List String)) (t : String) (v : PyVal),
      (processFields env text l).2.1.lookup t = some v → t ∈ l.map Prod.fst := by
  intro l
  induction l with
  | nil => intro t v h; simp [processFields, List.lookup] at h
  | cons hd rest ih =>
    obtain ⟨ft, pats⟩ := hd
    intro t v h
    simp only [processFields] at h
    by_cases hf : collectMatches env text pats = []
    · simp only [hf, if_pos rfl] at h
      simp [ih t v h]
    · simp only [if_neg hf] at h
      rcases hc : cleanMatches ft (collectMatches env text pats) with _ | ⟨c, cs⟩ <;>
        simp only [hc] at h
      · simp [ih t v h]
      · by_cases ht : t = ft
        · simp [ht]
        · have hb : (t == ft) = false := beq_eq_false_iff_ne.mpr ht
          simp only [List.lookup, hb] at h
          simp [ih t v h]

theorem processFields_structured_first (env : ReEnv) (text : String) :
    ∀ (l : List (String × List String)), (l.map Prod.fst).Nodup →
      ∀ (t : String) (v : PyVal),
        (processFields env text l).2.1.lookup t = some v →
        ∃ s rest, v = PyVal.str s ∧
          (processFields env text l).1.lookup t = some (s :: rest) := by
  intro l
  induction l with
  | nil => intro _ t v h; simp [processFields, List.lookup] at h
  | cons hd rest ih =>
    obtain ⟨ft, pats⟩ := hd
    intro hnd t v h
    have hnd2 : (ft :: rest.map Prod.fst).Nodup := by simpa using hnd
    have hft : ft ∉ rest.map Prod.fst := (List.nodup_cons.mp hnd2).1
    have hnd' : (rest.map Prod.fst).Nodup := (List.nodup_cons.mp hnd2).2
    simp only [processFields] at h ⊢
    by_cases hf : collectMatches env text pats = []
    · simp only [hf, if_pos rfl] at h ⊢
      exact ih hnd' t v h
    · simp only [if_neg hf] at h ⊢
      rcases hc : cleanMatches ft (collectMatches env text pats) with _ | ⟨c, cs⟩ <;>
        simp only [hc] at h ⊢
      · -- cleaned is empty: no structured entry was added for `ft`
        by_cases ht : t = ft
        · subst ht
          exact absurd (processFields_str_mem env text rest t v h) hft
        · have hb : (t == ft) = false := beq_eq_false_iff_ne.mpr ht
          obtain ⟨s, rest', hv, hraw⟩ := ih hnd' t v h
          exact ⟨s, rest', hv, by simp [List.lookup, hb, hraw]⟩
      · by_cases ht : t = ft
        · subst ht
          simp only [List.lookup, beq_self_eq_true] at h ⊢
          exact ⟨c, cs, by simpa using h.symm, rfl⟩
        · have hb : (t == ft) = false := beq_eq_false_iff_ne.mpr ht
          simp only [List.lookup, hb] at h ⊢
          obtain ⟨s, rest', hv, hraw⟩ := ih hnd' t v h
          exact ⟨s, rest', hv, hraw⟩

theorem processFields_no_match (env : ReEnv) (text : String) :
    ∀ (l : List (String × List String)), (l.map Prod.fst).Nodup →
      ∀ (t : String) (pats : List String), (t, pats) ∈ l →
        (∀ p ∈ pats, env.findall ReFlags.icaseMultiline p text = []) →
        (processFields env text l).1.lookup t = none ∧
        (processFields env text l).2.1.lookup t = none := by
  intro l
  induction l with
  | nil => intro _ t pats hmem; simp at hmem
  | cons hd rest ih =>
    obtain ⟨ft, fpats⟩ := hd
    intro hnd t pats hmem hp
    have hnd2 : (ft :: rest.map Prod.fst).Nodup := by simpa using hnd
    have hft : ft ∉ rest.map Prod.fst := (List.nodup_cons.mp hnd2).1
    have hnd' : (rest.map Prod.fst).Nodup := (List.nodup_cons.mp hnd2).2
    rcases List.mem_cons.mp hmem with heq | hmem'
    · -- the head field itself has no matches
      injection heq with h1 h2
      subst h1; subst h2
      have hcoll : collectMatches env text pats = [] := collectMatches_empty env text pats hp
      simp only [processFields]
      rw [if_pos hcoll]
      constructor
      · cases hraw : (processFields env text rest).1.lookup t with
        | none => rfl
        | some xs => exact absurd (processFields_raw_mem env text rest t xs hraw) hft
      · cases hstr : (processFields env text rest).2.1.lookup t with
        | none => rfl
        | some v => exact absurd (processFields_str_mem env text rest t v hstr) hft
    · -- the field lives in the tail; the head key differs from it
      have htmem : t ∈ rest.map Prod.fst :=
        List.mem_map.mpr ⟨(t, pats), hmem', rfl⟩
      have htne : t ≠ ft := fun hh => hft (hh ▸ htmem)
      have hb : (t == ft) = false := beq_eq_false_iff_ne.mpr htne
      obtain ⟨ih1, ih2⟩ := ih hnd' t pats hmem' hp
      simp only [processFields]
      by_cases hf : collectMatches env text fpats = []
      · simp only [hf, if_pos rfl]
        exact ⟨ih1, ih2⟩
      · simp only [if_neg hf]
        rcases hc : cleanMatches ft (collectMatches env text fpats) with _ | ⟨c, cs⟩ <;>
          simp only [List.lookup, hb, ih1, ih2] <;> exact ⟨trivial, trivial⟩

theorem calculate_confidence_bounds (field_type value full_text : String) :
    (0.1 : ℚ) ≤ calculate_confidence field_type value full_text ∧
    calculate_confidence field_type value full_text ≤ 1.0 := by
  unfold calculate_confidence
  constructor
  · exact le_min (by norm_num) (le_max_left _ _)
  · exact min_le_left _ _

theorem processFields_conf_bounds (env : ReEnv) (text : String) :
    ∀ (l : List (String × List String)) (t : String) (q : ℚ),
      (processFields env text l).2.2.lookup t = some q →
      (0.1 : ℚ) ≤ q ∧ q ≤ 1.0 := by
  intro l
  induction l with
  | nil => intro t q h; simp [processFields, List.lookup] at h
  | cons hd rest ih =>
    obtain ⟨ft, pats⟩ := hd
    intro t q h
    simp only [processFields] at h
    by_cases hf : collectMatches env text pats = []
    · simp only [hf, if_pos rfl] at h
      exact ih t q h
    · simp only [if_neg hf] at h
      rcases hc : cleanMatches ft (collectMatches env text pats) with _ | ⟨c, cs⟩ <;>
        simp only [hc] at h
      · exact ih t q h
      · by_cases ht : t = ft
        · subst ht
          simp only [List.lookup, beq_self_eq_true] at h
          have := calculate_confidence_bounds t c text
          simp only [Option.some.injEq] at h
          exact h ▸ this
        · have hb : (t == ft) = false := beq_eq_false_iff_ne.mpr ht
          simp only [List.lookup, hb] at h
          exact ih t q h

/-! ## Characterisation of `extract_structured_data` -/

theorem patternsList_keys : patternsList.map Prod.fst = fieldTypes := by decide

theorem patternsList_nodup : (patternsList.map Prod.fst).Nodup := by decide

/-- The `'date'`/`'time'` fallback in `post_process_extractions` is
dead code: the registry has no `'date'` or `'time'` field type, so
`raw_extractions` never holds those keys. -/
theorem fallback_keys_absent (env : ReEnv) (text : String) :
    (processFields env text patternsList).1.lookup "date" = none ∧
    (processFields env text patternsList).1.lookup "time" = none := by
  constructor
  · cases h : (processFields env text patternsList).1.lookup "date" with
    | none => rfl
    | some xs =>
      have := processFields_raw_mem env text patternsList "date" xs h
      rw [patternsList_keys] at this
      exact absurd this (by decide)
  · cases h : (processFields env text patternsList).1.lookup "time" with
    | none => rfl
    | some xs =>
      have := processFields_raw_mem env text patternsList "time" xs h
      rw [patternsList_keys] at this
      exact absurd this (by decide)

/-- Unfolded shape of the extraction result: the date/time fallback
never fires, so the final `structured_fields` is the loop result plus
the two synthetic entries, and the other dict components are exactly
the loop results. -/
theorem extract_structured_data_eq (env : ReEnv) (text filename now : String) :
    extract_structured_data env text filename now =
      { raw_extractions := (processFields env text patternsList).1
      , structured_fields :=
          (dictSet
            (dictSet (processFields env text patternsList).2.1
              "key_themes" (PyVal.themes (extract_themes text)))
            "entities" (PyVal.ents (extract_entities env text)))
      , confidence_scores := (processFields env text patternsList).2.2
      , document_type := classify_document_type text
      , meta_filename := filename
      , meta_extraction_time := now
      , meta_text_length := text.length
      , meta_fields_found :=
          (dictSet
            (dictSet (processFields env text patternsList).2.1
              "key_themes" (PyVal.themes (extract_themes text)))
            "entities" (PyVal.ents (extract_entities env text))).length
      , meta_avg_confidence :=
          if (processFields env text patternsList).2.2 = [] then 0.0
          else ((processFields env text patternsList).2.2.map Prod.snd).sum /
            ((processFields env text patternsList).2.2.length : ℚ) } := by
  obtain ⟨hdate, htime⟩ := fallback_keys_absent env text
  unfold extract_structured_data post_process_extractions
  simp only [hdate, htime, Option.getD_none, List.append_nil, ne_eq,
    not_true_eq_false, if_false, reduceIte]
  split <;> rfl

theorem mem_fieldTypes_ne (t : String) (ht : t ∈ fieldTypes) :
    t ≠ "key_themes" ∧ t ≠ "entities" := by
  fin_cases ht <;> exact ⟨by decide, by decide⟩

/-- C1: for every field type `t` of the eleven-type enumeration, an
entry of `structured_fields` at `t` is a plain string equal to the
first element of `raw_extractions[t]` — selection is "first candidate
wins", never best-scored.  (The synthetic `key_themes`/`entities`
entries are outside the enumeration.) -/
theorem structured_field_is_first_candidate (env : ReEnv)
    (text filename now t : String) (ht : t ∈ fieldTypes) (v : PyVal)
    (hv : (extract_structured_data env text filename now).structured_fields.lookup t
            = some v) :
    ∃ s rest, v = PyVal.str s ∧
      (extract_structured_data env text filename now).raw_extractions.lookup t
        = some (s :: rest) := by
  obtain ⟨hkt, hen⟩ := mem_fieldTypes_ne t ht
  rw [extract_structured_data_eq] at hv ⊢
  simp only at hv ⊢
  rw [lookup_dictSet, if_neg hen, lookup_dictSet, if_neg hkt] at hv
  exact processFields_structured_first env text patternsList patternsList_nodup t v hv

/-- A concrete oracle used by witnesses: only the first classification
pattern matches, returning one capture. -/
def envC : ReEnv :=
  ⟨fun _ p _ => if p = "Classification:\\s*([A-Z//\\s]+)" then ["SECRET "] else []⟩

/-- Witness for C1 at a concrete input: the populated
`classification` field equals the head of its raw candidate list. -/
theorem structured_field_is_first_candidate_witness :
    ∃ s rest, PyVal.str "SECRET" = PyVal.str s ∧
      (extract_structured_data envC "x" "" "").raw_extractions.lookup "classification"
        = some (s :: rest) :=
  structured_field_is_first_candidate envC "x" "" "" "classification"
    (by decide) (PyVal.str "SECRET") (by decide)

/-- C3: a field type whose every pattern yields zero matches has no
entry in `raw_extractions` and none in `structured_fields`. -/
theorem no_match_no_entry (env : ReEnv) (text filename now t : String)
    (pats : List String) (hmem : (t, pats) ∈ patternsList)
    (hp : ∀ p ∈ pats, env.findall ReFlags.icaseMultiline p text = []) :
    (extract_structured_data env text filename now).raw_extractions.lookup t = none ∧
    (extract_structured_data env text filename now).structured_fields.lookup t = none := by
  have htmem : t ∈ fieldTypes := by
    rw [← patternsList_keys]
    exact List.mem_map.mpr ⟨(t, pats), hmem, rfl⟩
  obtain ⟨hkt, hen⟩ := mem_fieldTypes_ne t htmem
  obtain ⟨h1, h2⟩ := processFields_no_match env text patternsList patternsList_nodup t pats hmem hp
  rw [extract_structured_data_eq]
  simp only
  rw [lookup_dictSet, if_neg hen, lookup_dictSet, if_neg hkt]
  exact ⟨h1, h2⟩

/-- A concrete oracle with no matches at all. -/
def env0 : ReEnv := ⟨fun _ _ _ => []⟩

/-- Witness for C3: with a no-match oracle, `classification` is absent
from both dicts. -/
theorem no_match_no_entry_witness :
    (extract_structured_data env0 "t" "" "").raw_extractions.lookup "classification" = none ∧
    (extract_structured_data env0 "t" "" "").structured_fields.lookup "classification" = none :=
  no_match_no_entry env0 "t" "" "" "classification"
    [ "Classification:\\s*([A-Z//\\s]+)"
    , "CLASSIFICATION:\\s*([A-Z//\\s]+)"
    , "(?:^|\\n)\\s*([A-Z]+//[A-Z\\s/]+)"
    , "(?:^|\\n)\\s*(UNCLASSIFIED|CONFIDENTIAL|SECRET|TOP\\s*SECRET)(?://[A-Z\\s/]+)?" ]
    (by decide) (fun p _ => rfl)

/-- C4: `calculate_confidence` always lands in `[0.1, 1.0]`, and hence
so does every value stored in `confidence_scores`. -/
theorem confidence_scores_in_bounds :
    (∀ field_type value full_text,
      (0.1 : ℚ) ≤ calculate_confidence field_type value full_text ∧
      calculate_confidence field_type value full_text ≤ 1.0) ∧
    (∀ (env : ReEnv) (text filename now t : String) (q : ℚ),
      (extract_structured_data env text filename now).confidence_scores.lookup t = some q →
      (0.1 : ℚ) ≤ q ∧ q ≤ 1.0) := by
  refine ⟨calculate_confidence_bounds, ?_⟩
  intro env text filename now t q hq
  rw [extract_structured_data_eq] at hq
  exact processFields_conf_bounds env text patternsList t q hq

/-- Witness for C4 at a concrete extraction (the score is stated as
the unevaluated `calculate_confidence` application; the lookup
hypothesis holds by computation). -/
theorem confidence_scores_in_bounds_witness :
    (0.1 : ℚ) ≤ calculate_confidence "classification" "SECRET" "x" ∧
    calculate_confidence "classification" "SECRET" "x" ≤ 1.0 :=
  confidence_scores_in_bounds.2 envC "x" "" ""
    "classification" (calculate_confidence "classification" "SECRET" "x") rfl

/-- C9: `extraction_metadata` records the number of entries of
`structured_fields` in `fields_found`, and the arithmetic mean of the
confidence scores in `avg_confidence` (0.0 when there are none). -/
theorem extraction_metadata_stats (env : ReEnv) (text filename now : String) :
    (extract_structured_data env text filename now).meta_fields_found =
      (extract_structured_data env text filename now).structured_fields.length ∧
    (extract_structured_data env text filename now).meta_avg_confidence =
      (if (extract_structured_data env text filename now).confidence_scores = [] then 0.0
       else ((extract_structured_data env text filename now).confidence_scores.map Prod.snd).sum /
         ((extract_structured_data env text filename now).confidence_scores.length : ℚ)) := by
  rw [extract_structured_data_eq]
  exact ⟨rfl, rfl⟩

/-- C10: the miner never populates the `organizations` entity
category: it is the empty list in `extract_entities` and in the
`entities` entry of every extraction result. -/
theorem organizations_always_empty (env : ReEnv) (text filename now : String) :
    (extract_entities env text).organizations = [] ∧
    ∃ e : Entities,
      (extract_structured_data env text filename now).structured_fields.lookup "entities"
        = some (PyVal.ents e) ∧ e.organizations = [] := by
  constructor
  · rfl
  · refine ⟨extract_entities env text, ?_, rfl⟩
    rw [extract_structured_data_eq]
    simp only
    rw [lookup_dictSet, if_pos rfl]

theorem processFields_all_empty (env : ReEnv) (text : String)
    (l : List (String × List String))
    (h : ∀ pr ∈ l, ∀ p ∈ pr.2, env.findall ReFlags.icaseMultiline p text = []) :
    processFields env text l = ([], [], []) := by
  induction l with
  | nil => rfl
  | cons hd rest ih =>
    obtain ⟨ft, pats⟩ := hd
    have hcoll : collectMatches env text pats = [] :=
      collectMatches_empty env text pats (fun p hp => h (ft, pats) (by simp) p hp)
    simp only [processFields]
    rw [if_pos hcoll]
    exact ih (fun pr hpr p hp => h pr (List.mem_cons_of_mem _ hpr) p hp)

/-- With no regex matches on the empty text, the extraction result of
`extract("", "")` is fully determined. -/
theorem extract_structured_data_empty (env : ReEnv) (now : String)
    (h : ∀ fl p, env.findall fl p "" = []) :
    extract_structured_data env "" "" now =
      { raw_extractions := []
      , structured_fields :=
          [("key_themes", PyVal.themes []), ("entities", PyVal.ents ⟨[], [], [], []⟩)]
      , confidence_scores := []
      , document_type := "general_document"
      , meta_filename := ""
      , meta_extraction_time := now
      , meta_text_length := 0
      , meta_fields_found := 2
      , meta_avg_confidence := 0.0 } := by
  have hP : processFields env "" patternsList = ([], [], []) :=
    processFields_all_empty env "" patternsList (fun pr _ p _ => h _ p)
  have hEnt : extract_entities env "" = ⟨[], [], [], []⟩ := by
    simp [extract_entities, people_patterns, place_patterns, equipment_patterns, h,
      cleanDedupTrunc]
  have hTh : extract_themes "" = [] := by decide
  have hCl : classify_document_type "" = "general_document" := by decide
  rw [extract_structured_data_eq, hP]
  simp only [hEnt, hTh, hCl]
  rfl

/-- C2: on empty text (where every pattern has zero matches) the
extractor returns — without any failure, which the totality of the
embedding models — a result classified `general_document`, with no raw
extractions, no confidence scores, and only the two synthetic
structured entries (`key_themes = []`, all-empty `entities`). -/
theorem extract_empty_input_safe (env : ReEnv) (now : String)
    (h : ∀ fl p, env.findall fl p "" = []) :
    (extract_structured_data env "" "" now).document_type = "general_document" ∧
    (extract_structured_data env "" "" now).raw_extractions = [] ∧
    (extract_structured_data env "" "" now).confidence_scores = [] ∧
    (extract_structured_data env "" "" now).structured_fields =
      [("key_themes", PyVal.themes []), ("entities", PyVal.ents ⟨[], [], [], []⟩)] := by
  rw [extract_structured_data_empty env now h]
  exact ⟨rfl, rfl, rfl, rfl⟩

/-- Witness for C2 with the trivial no-match oracle. -/
theorem extract_empty_input_safe_witness :
    (extract_structured_data env0 "" "" "").document_type = "general_document" ∧
    (extract_structured_data env0 "" "" "").raw_extractions = [] ∧
    (extract_structured_data env0 "" "" "").confidence_scores = [] ∧
    (extract_structured_data env0 "" "" "").structured_fields =
      [("key_themes", PyVal.themes []), ("entities", PyVal.ents ⟨[], [], [], []⟩)] :=
  extract_empty_input_safe env0 "" (fun _ _ => rfl)

/-- C5: the date/time normaliser returns the stripped input unchanged
whenever no format parses (and, being a total function, never fails),
and is idempotent on already-normalised dates, as witnessed by the
three reference evaluations. -/
theorem parse_datetime_spec :
    (∀ s, tryFormats (pyStrip s).data = none → parse_datetime s = pyStrip s) ∧
    parse_datetime "2023-01-15" = "2023-01-15" ∧
    parse_datetime "01/15/2023" = "2023-01-15" ∧
    parse_datetime "not-a-date" = "not-a-date" := by
  refine ⟨?_, by decide, by decide, by decide⟩
  intro s hnone
  simp only [parse_datetime, hnone]

/-- Witness for C5 at a concrete non-date input. -/
theorem parse_datetime_spec_witness : parse_datetime "xyz" = pyStrip "xyz" :=
  parse_datetime_spec.1 "xyz" (by decide)

/-! ## C6: the document classifier

The claim speaks of a "six-label enumeration"; the classifier actually
has seven possible outputs (`intelligence_summary`,
`intelligence_assessment`, `intelligence_report`, `mission_report`,
`incident_report`, `briefing`, `general_document`), so no six-element
label list can contain every output. -/

theorem isInfix_map {α β : Type} (f : α → β) {l₁ l₂ : List α} (h : l₁ <:+: l₂) :
    l₁.map f <:+: l₂.map f := by
  obtain ⟨s, t, rfl⟩ := h
  exact ⟨s.map f, t.map f, by simp⟩

theorem pyContains_of_isInfix (w sub text : String)
    (hw : w.data <:+: sub.data.map Char.toLower)
    (h : sub.data <:+: text.data) :
    pyContains (pyLower text) w = true := by
  have h2 : w.data <:+: (pyLower text).data := hw.trans (isInfix_map Char.toLower h)
  exact decide_eq_true h2

/-- Counterexample to C6 as stated: the classifier's range has seven
pairwise-distinct values, so no six-element label list covers it. -/
theorem classify_six_label_enumeration_false :
    ¬ ∃ L : List String, L.length = 6 ∧
      ∀ text, classify_document_type text ∈ L := by
  rintro ⟨L, hlen, hall⟩
  have h1 : "intelligence_summary" ∈ L := by
    have := hall "intel summary"
    rwa [show classify_document_type "intel summary" = "intelligence_summary" by decide] at this
  have h2 : "intelligence_assessment" ∈ L := by
    have := hall "intel analysis"
    rwa [show classify_document_type "intel analysis" = "intelligence_assessment" by decide] at this
  have h3 : "intelligence_report" ∈ L := by
    have := hall "intel"
    rwa [show classify_document_type "intel" = "intelligence_report" by decide] at this
  have h4 : "mission_report" ∈ L := by
    have := hall "patrol"
    rwa [show classify_document_type "patrol" = "mission_report" by decide] at this
  have h5 : "incident_report" ∈ L := by
    have := hall "event"
    rwa [show classify_document_type "event" = "incident_report" by decide] at this
  have h6 : "briefing" ∈ L := by
    have := hall "brief"
    rwa [show classify_document_type "brief" = "briefing" by decide] at this
  have h7 : "general_document" ∈ L := by
    have := hall ""
    rwa [show classify_document_type "" = "general_document" by decide] at this
  have hsub : (["intelligence_summary", "intelligence_assessment", "intelligence_report",
      "mission_report", "incident_report", "briefing", "general_document"] :
      List String).toFinset ⊆ L.toFinset := by
    intro x hx
    rw [List.mem_toFinset] at hx ⊢
    simp only [List.mem_cons, List.not_mem_nil, or_false] at hx
    rcases hx with rfl | rfl | rfl | rfl | rfl | rfl | rfl
    · exact h1
    · exact h2
    · exact h3
    · exact h4
    · exact h5
    · exact h6
    · exact h7
  have h7card : (["intelligence_summary", "intelligence_assessment", "intelligence_report",
      "mission_report", "incident_report", "briefing", "general_document"] :
      List String).toFinset.card = 7 := by decide
  have hge : (7 : ℕ) ≤ L.toFinset.card := h7card ▸ Finset.card_le_card hsub
  have hle : L.toFinset.card ≤ 6 := hlen ▸ L.toFinset_card_le
  omega

/-- C6 (amended): the classifier always returns one of its SEVEN
labels, chosen by the stated keyword priority; any text containing
both `"Intelligence Summary"` and `"SITREP"` is classified
`intelligence_summary`. -/
theorem classify_document_type_seven_labels :
    (∀ text, classify_document_type text ∈
      (["intelligence_summary", "intelligence_assessment", "intelligence_report",
        "mission_report", "incident_report", "briefing", "general_document"] :
        List String)) ∧
    (∀ text, "Intelligence Summary".data <:+: text.data →
      "SITREP".data <:+: text.data →
      classify_document_type text = "intelligence_summary") := by
  constructor
  · intro text
    simp only [classify_document_type]
    split_ifs <;> simp
  · intro text hIS _hSIT
    have hintel : pyContains (pyLower text) "intelligence" = true :=
      pyContains_of_isInfix "intelligence" "Intelligence Summary" text (by decide) hIS
    have hsum : pyContains (pyLower text) "summary" = true :=
      pyContains_of_isInfix "summary" "Intelligence Summary" text (by decide) hIS
    simp [classify_document_type, anyWord, hintel, hsum]

/-- Witness for the amended C6. -/
theorem classify_document_type_seven_labels_witness :
    classify_document_type "Intelligence Summary SITREP" = "intelligence_summary" :=
  classify_document_type_seven_labels.2 "Intelligence Summary SITREP" (by decide) (by decide)

/-! ## Lemmas about the database field mapper -/

theorem recSet_ne (r : DBRecord) (k v k' : String) (h : k' ≠ k) :
    recSet r k v k' = r k' := by
  simp [recSet, h]

theorem recSet_self (r : DBRecord) (k v : String) : recSet r k v k = some v := by
  simp [recSet]

/-- The mapping loop leaves a database key unchanged when every pair
targeting that key has an absent or falsy structured value. -/
theorem applyFieldMapping_skip (structured : List (String × PyVal)) :
    ∀ (l : List (String × String)) (r : DBRecord) (k : String),
      (∀ p ∈ l, p.2 = k → ∀ v, structured.lookup p.1 = some v → pyTruthy v = false) →
      applyFieldMapping structured l r k = r k := by
  intro l
  induction l with
  | nil => intro r k _; rfl
  | cons p rest ih =>
    intro r k hk
    have htail : ∀ q ∈ rest, q.2 = k → ∀ v, structured.lookup q.1 = some v →
        pyTruthy v = false :=
      fun q hq => hk q (List.mem_cons_of_mem _ hq)
    simp only [applyFieldMapping]
    rcases hl : structured.lookup p.1 with _ | v
    · rw [ih _ k htail]
    · rw [ih _ k htail]
      show (if pyTruthy v = true then
          if p.1 = "key_themes" then recSet r p.2 (pyJoinBar v)
          else recSet r p.2 (pyStrOfVal v)
        else r) k = r k
      by_cases htr : pyTruthy v = true
      · have hne : p.2 ≠ k := by
          intro he
          have hfalse := hk p (List.mem_cons_self _ _) he v hl
          rw [htr] at hfalse
          cases hfalse
        rw [if_pos htr]
        by_cases hkt : p.1 = "key_themes"
        · rw [if_pos hkt, recSet_ne _ _ _ _ (Ne.symm hne)]
        · rw [if_neg hkt, recSet_ne _ _ _ _ (Ne.symm hne)]
      · rw [if_neg htr]

theorem field_mapping_snd_not_special :
    ∀ p ∈ field_mapping, p.2 ≠ "MGRS" ∧ p.2 ≠ "extraction_metadata" := by decide

theorem field_mapping_snd_inj :
    ∀ p ∈ field_mapping, ∀ q ∈ field_mapping, p.2 = q.2 → p.1 = q.1 := by decide

theorem field_mapping_snd_mem :
    ∀ p ∈ field_mapping, p.2 ∈ (["highest_classification", "timeframes", "locations",
      "subjects", "topics", "caveats"] : List String) := by decide

/-- The post-loop steps of `format_for_database` (MGRS merge and
metadata write) leave any key other than `"MGRS"` and
`"extraction_metadata"` at its post-loop value. -/
theorem format_tail_preserves (ex : Extracted) (orig : DBRecord) (k : String)
    (h1 : k ≠ "MGRS") (h2 : k ≠ "extraction_metadata") :
    format_for_database ex orig k =
      applyFieldMapping ex.structured_fields field_mapping orig k := by
  unfold format_for_database
  rcases hmg : ex.structured_fields.lookup "location_mgrs" with _ | v
  · simp only
    rw [recSet_ne _ _ _ _ h2]
  · cases v with
    | str nm =>
      simp only
      rw [recSet_ne _ _ _ _ h2]
      split_ifs <;> first | rw [recSet_ne _ _ _ _ h1] | rfl
    | themes l =>
      simp only
      rw [recSet_ne _ _ _ _ h2]
    | ents e =>
      simp only
      rw [recSet_ne _ _ _ _ h2]

/-- A concrete extraction result with only an extracted MGRS value,
used by the merge examples. -/
def exM : Extracted :=
  { raw_extractions := []
  , structured_fields := [("location_mgrs", PyVal.str "42SXD8914734521")]
  , confidence_scores := []
  , document_type := "general_document"
  , meta_filename := ""
  , meta_extraction_time := ""
  , meta_text_length := 0
  , meta_fields_found := 0
  , meta_avg_confidence := 0.0 }

/-- A concrete original record carrying an existing MGRS value. -/
def origM : DBRecord :=
  fun k => if k = "MGRS" then some "38SMB4484536781" else none

/-- C7: the MGRS merge rule of `format_for_database` — pipe-join when
an existing non-empty value does not contain the new one, adopt the
new value when the existing one is empty or absent, and re-merging the
same value is a no-op (concrete example included). -/
theorem mgrs_merge_rule :
    (∀ (ex : Extracted) (orig : DBRecord) (v m : String),
      ex.structured_fields.lookup "location_mgrs" = some (PyVal.str v) →
      (orig "MGRS").getD "" = m → m ≠ "" → pyContains m v = false →
      format_for_database ex orig "MGRS" = some (m ++ "|" ++ v)) ∧
    (∀ (ex : Extracted) (orig : DBRecord) (v : String),
      ex.structured_fields.lookup "location_mgrs" = some (PyVal.str v) →
      (orig "MGRS").getD "" = "" →
      format_for_database ex orig "MGRS" = some v) ∧
    (format_for_database exM origM "MGRS" = some "38SMB4484536781|42SXD8914734521" ∧
     format_for_database exM (format_for_database exM origM) "MGRS"
       = some "38SMB4484536781|42SXD8914734521") := by
  have hMne : ("MGRS" : String) ≠ "extraction_metadata" := by decide
  refine ⟨?_, ?_, by decide, by decide⟩
  · intro ex orig v m hmg hm hne hnc
    have hmap : applyFieldMapping ex.structured_fields field_mapping orig "MGRS" = orig "MGRS" := by
      apply applyFieldMapping_skip
      intro p hp he
      exact absurd he (field_mapping_snd_not_special p hp).1
    simp only [format_for_database, hmg]
    rw [recSet_ne _ _ _ _ hMne, hmap, hm]
    have hcond : m ≠ "" ∧ ¬ (pyContains m v = true) := by
      refine ⟨hne, fun hc => ?_⟩
      rw [hnc] at hc
      cases hc
    rw [if_pos hcond, recSet_self]
  · intro ex orig v hmg hm
    have hmap : applyFieldMapping ex.structured_fields field_mapping orig "MGRS" = orig "MGRS" := by
      apply applyFieldMapping_skip
      intro p hp he
      exact absurd he (field_mapping_snd_not_special p hp).1
    simp only [format_for_database, hmg]
    rw [recSet_ne _ _ _ _ hMne, hmap, hm]
    have hcond : ¬ (("" : String) ≠ "" ∧ ¬ (pyContains "" v = true)) := by
      intro hc
      exact hc.1 rfl
    rw [if_neg hcond, if_pos rfl, recSet_self]

/-- Witness for C7: the general pipe-join branch applied at the
concrete example pair. -/
theorem mgrs_merge_rule_witness :
    format_for_database exM origM "MGRS" = some ("38SMB4484536781" ++ "|" ++ "42SXD8914734521") :=
  mgrs_merge_rule.1 exM origM "42SXD8914734521" "38SMB4484536781" rfl rfl
    (by decide) (by decide)

/-- C8: `format_for_database` is a frame over the original record —
every key other than the six mapped overlay targets, `MGRS`, and
`extraction_metadata` is returned unchanged; an overlay target is
written only when its structured source field is present and truthy;
and `extraction_metadata` is always (re)written with the serialized
metadata blob, overwriting any prior value. -/
theorem format_for_database_frame :
    (∀ (ex : Extracted) (orig : DBRecord) (k : String),
      k ∉ (["highest_classification", "timeframes", "locations", "subjects",
            "topics", "caveats", "MGRS", "extraction_metadata"] : List String) →
      format_for_database ex orig k = orig k) ∧
    (∀ (ex : Extracted) (orig : DBRecord) (ef db : String), (ef, db) ∈ field_mapping →
      (∀ v, ex.structured_fields.lookup ef = some v → pyTruthy v = false) →
      format_for_database ex orig db = orig db) ∧
    (∀ (ex : Extracted) (orig : DBRecord),
      format_for_database ex orig "extraction_metadata" = some (serializeMetadata ex)) := by
  refine ⟨?_, ?_, ?_⟩
  · intro ex orig k hk
    simp only [List.mem_cons, List.not_mem_nil, or_false, not_or] at hk
    obtain ⟨k1, k2, k3, k4, k5, k6, k7, k8⟩ := hk
    rw [format_tail_preserves ex orig k k7 k8]
    apply applyFieldMapping_skip
    intro p hp he
    exfalso
    have hmem := field_mapping_snd_mem p hp
    rw [he] at hmem
    simp only [List.mem_cons, List.not_mem_nil, or_false] at hmem
    rcases hmem with h | h | h | h | h | h
    exacts [k1 h, k2 h, k3 h, k4 h, k5 h, k6 h]
  · intro ex orig ef db hmem hfalse
    obtain ⟨hne1, hne2⟩ := field_mapping_snd_not_special (ef, db) hmem
    rw [format_tail_preserves ex orig db hne1 hne2]
    apply applyFieldMapping_skip
    intro p hp he v hv
    have hpe : p.1 = ef := field_mapping_snd_inj p hp (ef, db) hmem (by rw [he])
    exact hfalse v (by rw [← hpe]; exact hv)
  · intro ex orig
    simp only [format_for_database]
    exact recSet_self _ _ _

/-- Witness for C8: a key outside the overlay set is preserved at a
concrete record. -/
theorem format_for_database_frame_witness :
    format_for_database exM origM "file_hash" = origM "file_hash" :=
  format_for_database_frame.1 exM origM "file_hash" (by decide)
